import Mathlib

/-!
Verification development for the `sketchbook` component library.

The repository's one stateful subsystem is the notification ("Toast") manager described in
spec.md sections 2-5: a Notification Store (ordered list of active notifications), a Timer
Registry (one cancellable countdown per non-persistent notification) and a Manager facade
(`notify`, severity helpers, `dismiss`, `dismissAll`, configurable default duration).
The component file `src/components/Toast.tsx` itself is not among the provided sources —
only its Storybook stories (`Toast.stories.tsx`) and documentation referring to it are —
so the whole Toast subsystem below is modelled from the spec's words and checked against
the usage exhibited by the stories.

The Modal component (`src/components/Modal.tsx`) and the component scaffolding script
(`scripts` file, provided unnamed) are present in the sources and are embedded directly.
-/

namespace Sketchbook

/-- Severity of a notification: the closed set {success, error, warning, info} from the
spec's data model (section 3); the stories call the matching helpers `success`, `error`,
`warning`, `info`. -/
inductive Severity where
  | success
  | error
  | warning
  | info
deriving DecidableEq, Repr

/-- Modelled from the spec: the `Notification` record of section 3 (`src/components/Toast.tsx`
is missing from the sources; only its stories exist). `id` is the opaque unique identifier
(modelled as a Nat issued by the Manager's counter), `durationMs` the effective duration
(0 = persistent). The optional `action` pair is "purely passed through to the renderer, not
interpreted by the Manager", so only its label is modelled; the callback is opaque. -/
structure Notification where
  id : Nat
  message : String
  severity : Severity
  durationMs : Nat
  action : Option String
deriving DecidableEq, Repr

/-- The ids of the records currently in a Store collection, in store order. -/
def idsOf (store : List Notification) : List Nat := store.map (·.id)

namespace Store

/-- Modelled from the spec (section 4.1): `insert(notification)` appends to the end of the
ordered collection; it fails silently if the `id` is already present. -/
def insert (n : Notification) (store : List Notification) : List Notification :=
  if store.any (fun m => m.id == n.id) then store else store ++ [n]

/-- Modelled from the spec (section 4.1): `removeById(id)` removes the matching record if
present; no-op (not an error) if absent. -/
def removeById (id : Nat) (store : List Notification) : List Notification :=
  store.filter (fun m => m.id != id)

/-- Modelled from the spec (section 4.1): `removeAll()` clears the collection and returns
the set of ids removed so the caller can cancel their timers. -/
def removeAll (store : List Notification) : List Nat × List Notification :=
  (idsOf store, [])

/-- Modelled from the spec (section 4.1): `list()` produces a read-only snapshot of the
current notifications in store order. -/
def list (store : List Notification) : List Notification := store

end Store

/-- A pending timer of the Timer Registry: the notification id it belongs to, paired with
the absolute instant (model clock value) at which it fires. The expiration callback is not
stored: in the Manager it is always "remove this id from the Store", which the model inlines
at firing time (`Manager.advance`). -/
abbrev TimerEntry := Nat × Nat

/-- The ids that currently own a pending timer. -/
def timerIds (ts : List TimerEntry) : List Nat := ts.map (·.1)

namespace Registry

/-- Modelled from the spec (section 4.2): `cancel(id)` cancels and removes an existing timer
for `id`; no-op if none exists. -/
def cancel (id : Nat) (ts : List TimerEntry) : List TimerEntry :=
  ts.filter (fun t => t.1 != id)

/-- Modelled from the spec (section 4.2): `schedule(id, delayMs, onExpire)` registers a
one-shot timer; if a timer already exists for `id` it is cancelled first (no overlapping
timers per id). `deadline` is the absolute fire instant (caller's clock plus delay); callers
must check `delayMs != 0` before calling (0 signals "persistent"). -/
def schedule (id : Nat) (deadline : Nat) (ts : List TimerEntry) : List TimerEntry :=
  cancel id ts ++ [(id, deadline)]

/-- Modelled from the spec (section 4.2): `cancelAll()` cancels and removes every pending
timer. -/
def cancelAll (_ts : List TimerEntry) : List TimerEntry := []

end Registry

/-- Modelled from the spec: the combined state of the Notification Manager — the Store's
ordered collection, the Timer Registry's pending timers, the configurable default duration,
the id-generation counter (ids are the Manager's exclusive responsibility, section 9), and
the model clock used to express timer expiry. -/
structure ToastState where
  store : List Notification
  timers : List TimerEntry
  defaultDuration : Nat
  nextId : Nat
  now : Nat
deriving DecidableEq, Repr

namespace Manager

/-- Modelled from the spec: a freshly constructed Manager — empty Store, empty Registry, a
configurable default duration (a concrete number of milliseconds; its particular value is
not fixed by the spec), id counter at 0, clock at 0. -/
def init : ToastState :=
  { store := [], timers := [], defaultDuration := 5000, nextId := 0, now := 0 }

/-- Modelled from the spec (section 4.3): `notify(message, severity, durationMs?, action?)`
generates a fresh unique id, builds the Notification record with the effective duration
(explicit or default), inserts it into the Store, and — if the effective duration is
nonzero — schedules a timer whose expiration removes the record. Returns the generated id. -/
def notify (message : String) (severity : Severity) (durationMs : Option Nat)
    (action : Option String) (s : ToastState) : Nat × ToastState :=
  let id := s.nextId
  let dur := durationMs.getD s.defaultDuration
  let n : Notification :=
    { id := id, message := message, severity := severity, durationMs := dur, action := action }
  (id,
    { s with
        store := Store.insert n s.store
        timers := if dur = 0 then s.timers else Registry.schedule id (s.now + dur) s.timers
        nextId := id + 1 })

/-- Modelled from the spec (section 4.3): the convenience wrapper `success(message,
durationMs?)` is a thin call into `notify` with fixed severity. -/
def success (message : String) (durationMs : Option Nat) (s : ToastState) : Nat × ToastState :=
  notify message Severity.success durationMs none s

/-- Modelled from the spec (section 4.3): the convenience wrapper `error(message,
durationMs?)` is a thin call into `notify` with fixed severity. -/
def error (message : String) (durationMs : Option Nat) (s : ToastState) : Nat × ToastState :=
  notify message Severity.error durationMs none s

/-- Modelled from the spec (section 4.3): the convenience wrapper `warning(message,
durationMs?)` is a thin call into `notify` with fixed severity. -/
def warning (message : String) (durationMs : Option Nat) (s : ToastState) : Nat × ToastState :=
  notify message Severity.warning durationMs none s

/-- Modelled from the spec (section 4.3): the convenience wrapper `info(message,
durationMs?)` is a thin call into `notify` with fixed severity. -/
def info (message : String) (durationMs : Option Nat) (s : ToastState) : Nat × ToastState :=
  notify message Severity.info durationMs none s

/-- Modelled from the spec (section 4.3): `dismiss(id)` cancels the timer for `id` (if any)
and removes the record from the Store (if present); safe on absent ids. -/
def dismiss (id : Nat) (s : ToastState) : ToastState :=
  { s with
      timers := Registry.cancel id s.timers
      store := Store.removeById id s.store }

/-- Modelled from the spec (section 4.3): `dismissAll()` cancels every pending timer, then
clears the Store. -/
def dismissAll (s : ToastState) : ToastState :=
  { s with
      timers := Registry.cancelAll s.timers
      store := (Store.removeAll s.store).2 }

/-- Modelled from the spec (section 4.3): changing the configurable default duration; it
touches neither the Store nor the Registry. -/
def setDefaultDuration (d : Nat) (s : ToastState) : ToastState :=
  { s with defaultDuration := d }

/-- The ids whose pending timers have a fire instant at or before `deadline`. -/
def dueIds (ts : List TimerEntry) (deadline : Nat) : List Nat :=
  (ts.filter (fun t => decide (t.2 ≤ deadline))).map (·.1)

/-- Modelled from the spec (sections 4.2 and 5): advancing the model clock by `dt`
milliseconds fires every timer whose instant has been reached. Firing removes the timer's
own registry entry and invokes its expiration callback, which removes the record from the
Store via `removeById`. -/
def advance (dt : Nat) (s : ToastState) : ToastState :=
  let now2 := s.now + dt
  let fired := dueIds s.timers now2
  { s with
      now := now2
      timers := s.timers.filter (fun t => decide (now2 < t.2))
      store := s.store.filter (fun n => !(decide (n.id ∈ fired))) }

end Manager

/-- One externally triggered event of the Manager's lifecycle: a call into the facade, or
the clock advancing (which fires due timers). -/
inductive Event where
  | notify (message : String) (severity : Severity) (durationMs : Option Nat)
      (action : Option String)
  | dismiss (id : Nat)
  | dismissAll
  | setDefaultDuration (d : Nat)
  | advance (dt : Nat)
deriving DecidableEq, Repr

/-- Applying one event to the Manager state. -/
def applyEvent (s : ToastState) (e : Event) : ToastState :=
  match e with
  | Event.notify msg sev dur act => (Manager.notify msg sev dur act s).2
  | Event.dismiss id => Manager.dismiss id s
  | Event.dismissAll => Manager.dismissAll s
  | Event.setDefaultDuration d => Manager.setDefaultDuration d s
  | Event.advance dt => Manager.advance dt s

/-- Running a sequence of events from a state. -/
def run (es : List Event) (s : ToastState) : ToastState := es.foldl applyEvent s

/-- The Manager state together with the bookkeeping counters of spec section 8: how many
notifications were created, how many were removed by timer expiry, and how many were removed
by explicit dismissal. -/
structure CountedState where
  st : ToastState
  created : Nat
  expired : Nat
  dismissed : Nat
deriving Repr

/-- One event applied to the counted state. A `notify` counts one creation; a `dismiss`
counts the records it actually removes (0 or 1); `dismissAll` counts every current record
as dismissed; `advance` counts the records removed by the timers that fire. -/
def countedStep (c : CountedState) (e : Event) : CountedState :=
  match e with
  | Event.notify msg sev dur act =>
      { c with st := (Manager.notify msg sev dur act c.st).2, created := c.created + 1 }
  | Event.dismiss id =>
      { c with st := Manager.dismiss id c.st,
               dismissed := c.dismissed + c.st.store.countP (fun n => n.id == id) }
  | Event.dismissAll =>
      { c with st := Manager.dismissAll c.st,
               dismissed := c.dismissed + c.st.store.length }
  | Event.setDefaultDuration d =>
      { c with st := Manager.setDefaultDuration d c.st }
  | Event.advance dt =>
      { c with st := Manager.advance dt c.st,
               expired := c.expired +
                 c.st.store.countP
                   (fun n => decide (n.id ∈ Manager.dueIds c.st.timers (c.st.now + dt))) }

/-- Running a sequence of events from a fresh Manager, with counters. -/
def countedRun (es : List Event) : CountedState :=
  es.foldl countedStep { st := Manager.init, created := 0, expired := 0, dismissed := 0 }

/-- The structural invariant of the Manager (spec section 3): store ids are distinct, at most
one active timer exists per id, every live timer id corresponds to a record in the Store, and
every id ever issued is below the generation counter. -/
def Inv (s : ToastState) : Prop :=
  (idsOf s.store).Nodup ∧
  (timerIds s.timers).Nodup ∧
  (∀ id ∈ timerIds s.timers, id ∈ idsOf s.store) ∧
  (∀ id ∈ idsOf s.store, id < s.nextId) ∧
  (∀ id ∈ timerIds s.timers, id < s.nextId)

instance (s : ToastState) : Decidable (Inv s) := by
  unfold Inv
  infer_instance

/-- Whether an event explicitly dismisses the notification `id`: a `dismiss` of that id, or
a `dismissAll`. Every other event leaves `id`'s record alone (spec: a persistent
notification "requires explicit dismissal"). -/
def dismissesId (id : Nat) : Event → Bool
  | Event.dismiss j => j == id
  | Event.dismissAll => true
  | _ => false

/-- The persistence property of a notification id: its record is live in the Store, no
timer is pending for it, and the id generator is past it (so it can never be reissued). -/
def Persists (id : Nat) (s : ToastState) : Prop :=
  id ∈ idsOf s.store ∧ id ∉ timerIds s.timers ∧ id < s.nextId

/-- The conservation relation of spec section 8, together with the structural invariant:
the Store's current length plus the number of removals (by expiry or dismissal) equals the
number of notifications created. -/
def CountedOK (c : CountedState) : Prop :=
  Inv c.st ∧ c.st.store.length + c.expired + c.dismissed = c.created

/-! ### Modal component (src/components/Modal.tsx)

The Modal is a function of its props; `open` is a Lean keyword, so the field is named
`isOpen` (it embeds the source prop `open`). The source's early return `if (!open) return
null` precedes all DOM output; the two lifecycle effects (escape-key listener and body
scroll lock) are embedded as the boolean conditions under which the source installs them. -/

/-- The closed set of the Modal `size` prop: 'sm' | 'md' | 'lg' | 'xl'. -/
inductive ModalSize where
  | sm
  | md
  | lg
  | xl
deriving DecidableEq, Repr

/-- The props of `Modal` (Modal.tsx lines 4-14). `isOpen` embeds the source prop `open`;
the `onClose` and `children` values are opaque to the rendering decision and are omitted. -/
structure ModalProps where
  isOpen : Bool
  title : Option String
  size : ModalSize
  showCloseButton : Bool
  closeOnOverlayClick : Bool
  closeOnEscape : Bool
  className : String
deriving DecidableEq, Repr

namespace Modal

/-- The `sizes` lookup of Modal.tsx lines 67-72. -/
def sizeClass : ModalSize → String
  | ModalSize.sm => "max-w-sm"
  | ModalSize.md => "max-w-md"
  | ModalSize.lg => "max-w-lg"
  | ModalSize.xl => "max-w-xl"

/-- What the Modal renders when it renders at all: the portal's overlay and dialog of
Modal.tsx lines 74-111 — whether clicking the overlay closes, the dialog's class string,
and whether the header bar, the title and the close button appear. -/
structure ModalView where
  overlayClosesOnClick : Bool
  dialogClass : String
  headerShown : Bool
  titleShown : Bool
  closeButtonShown : Bool
deriving DecidableEq, Repr

/-- The render function of `Modal` (Modal.tsx lines 16-112): `if (!open) return null`
(line 65), otherwise a portal whose overlay closes on click iff `closeOnOverlayClick`,
whose dialog class interpolates the size class and `className`, whose header row appears
iff a title or the close button is present. -/
def render (p : ModalProps) : Option ModalView :=
  if !p.isOpen then none
  else
    some
      { overlayClosesOnClick := p.closeOnOverlayClick
        dialogClass := "bg-white rounded-lg shadow-xl w-full " ++ sizeClass p.size ++ " "
          ++ p.className ++ " animate-scale-in"
        headerShown := p.title.isSome || p.showCloseButton
        titleShown := p.title.isSome
        closeButtonShown := p.showCloseButton }

/-- The escape-key effect of Modal.tsx lines 30-39: the keydown listener is installed
exactly when `open && closeOnEscape` (the effect body returns early on `!open ||
!closeOnEscape`). -/
def escapeListenerInstalled (p : ModalProps) : Bool := p.isOpen && p.closeOnEscape

/-- The body scroll lock effect of Modal.tsx lines 42-51: `document.body.style.overflow`
is set to 'hidden' exactly when `open` (and reset to '' otherwise). -/
def bodyScrollLocked (p : ModalProps) : Bool := p.isOpen

end Modal

/-! ### Component scaffolding script (provided unnamed; `scripts/new-component`)

The script prompts for a name, normalizes it with `toPascalCase`, and either exits with an
error (empty normalized name, or the component file already exists) before any write, or
writes the component file, the story file, and the updated `src/index.ts`. The filesystem
is embedded as an association list from path to contents; `process.exit(1)` is embedded as
returning the untouched filesystem paired with `false`. -/

namespace Scaffold

/-- A filesystem: association list from path to file contents. -/
abbrev FS := List (String × String)

/-- Whether a file exists at `p` (the script's `fs.existsSync`). -/
def existsFile (fs : FS) (p : String) : Bool := fs.any (fun f => f.1 == p)

/-- Writing a file (the script's `fs.writeFileSync`): overwrites any previous entry. -/
def writeFile (fs : FS) (p content : String) : FS :=
  (p, content) :: fs.filter (fun f => f.1 != p)

/-- Reading a file (the script's `fs.readFileSync`); absent files read as empty. -/
def readFile (fs : FS) (p : String) : String :=
  ((fs.find? (fun f => f.1 == p)).map (·.2)).getD ""

/-- The JavaScript `String.prototype.trim()` used on the entered name: drop whitespace
from both ends (embedded at the character level). -/
def trim (s : String) : String :=
  String.mk (((s.data.dropWhile Char.isWhitespace).reverse.dropWhile Char.isWhitespace).reverse)

/-- The JavaScript `String.prototype.trimEnd()` used on the index file contents: drop
trailing whitespace. -/
def trimEnd (s : String) : String :=
  String.mk ((s.data.reverse.dropWhile Char.isWhitespace).reverse)

/-- A separator character of the script's `toPascalCase` regex class `[-_\s]+`. -/
def isSepChar (c : Char) : Bool := c == '-' || c == '_' || c.isWhitespace

/-- The first regex replace of `toPascalCase`: each maximal run of `[-_\s]` characters is
replaced by the uppercased character that follows it (or by nothing at the end of the
string). `pend` records that a separator run is open, so the next ordinary character is
uppercased. -/
def pascalBody (pend : Bool) : List Char → List Char
  | [] => []
  | c :: cs =>
      if isSepChar c then pascalBody true cs
      else (if pend then c.toUpper else c) :: pascalBody false cs

/-- The second regex replace of `toPascalCase`: uppercase the first character. -/
def upFirst : List Char → List Char
  | [] => []
  | c :: cs => c.toUpper :: cs

/-- The script's `toPascalCase` (lines 319-323): collapse separator runs, capitalizing the
letter after each run, then capitalize the first letter. -/
def toPascalCase (s : String) : String :=
  String.mk (upFirst (pascalBody false s.data))

/-- The script's `generateComponentTemplate`: the component boilerplate for `name`. The
literal TSX text is abbreviated — only the presence and distinctness of the written files
matter to the properties proved here. -/
def generateComponentTemplate (name : String) : String :=
  "component template for " ++ name

/-- The script's `generateStoryTemplate`: the Storybook boilerplate for `name`, likewise
abbreviated. -/
def generateStoryTemplate (name : String) : String :=
  "story template for " ++ name

/-- The path of the component file the script would create. -/
def componentFilePath (name : String) : String :=
  "src/components/" ++ name ++ ".tsx"

/-- The path of the story file the script would create. -/
def storyFilePath (name : String) : String :=
  "src/components/" ++ name ++ ".stories.tsx"

/-- The path of the index file the script appends exports to. -/
def indexFilePath : String := "src/index.ts"

/-- The export lines the script appends to `src/index.ts` for `name`. -/
def newExports (name : String) : String :=
  "export \x7b " ++ name ++ " \x7d from './components/" ++ name ++ "'\n"
    ++ "export type \x7b " ++ name ++ "Props \x7d from './components/" ++ name ++ "'"

/-- The script's `main` (lines 371-426): trim and PascalCase the entered name; exit with an
error if the normalized name is empty or the component file already exists; otherwise write
the component file, the story file, and `src/index.ts` with the new exports appended.
Returns the resulting filesystem and whether the run succeeded. -/
def main (fs : FS) (rawName : String) : FS × Bool :=
  let componentName := toPascalCase (trim rawName)
  if componentName = "" then (fs, false)
  else if existsFile fs (componentFilePath componentName) then (fs, false)
  else
    let fs1 := writeFile fs (componentFilePath componentName)
      (generateComponentTemplate componentName)
    let fs2 := writeFile fs1 (storyFilePath componentName)
      (generateStoryTemplate componentName)
    let indexContent := readFile fs2 indexFilePath
    let fs3 := writeFile fs2 indexFilePath
      (trimEnd indexContent ++ "\n" ++ newExports componentName ++ "\n")
    (fs3, true)

end Scaffold

/-! ### Projection lemmas for the Manager operations -/

theorem notify_fst (msg : String) (sev : Severity) (dur : Option Nat) (act : Option String)
    (s : ToastState) : (Manager.notify msg sev dur act s).1 = s.nextId := rfl

theorem notify_snd_store (msg : String) (sev : Severity) (dur : Option Nat)
    (act : Option String) (s : ToastState) :
    (Manager.notify msg sev dur act s).2.store
      = Store.insert ⟨s.nextId, msg, sev, dur.getD s.defaultDuration, act⟩ s.store := rfl

theorem notify_snd_timers (msg : String) (sev : Severity) (dur : Option Nat)
    (act : Option String) (s : ToastState) :
    (Manager.notify msg sev dur act s).2.timers
      = if dur.getD s.defaultDuration = 0 then s.timers
        else Registry.schedule s.nextId (s.now + dur.getD s.defaultDuration) s.timers := rfl

theorem notify_snd_nextId (msg : String) (sev : Severity) (dur : Option Nat)
    (act : Option String) (s : ToastState) :
    (Manager.notify msg sev dur act s).2.nextId = s.nextId + 1 := rfl

theorem notify_snd_now (msg : String) (sev : Severity) (dur : Option Nat)
    (act : Option String) (s : ToastState) :
    (Manager.notify msg sev dur act s).2.now = s.now := rfl

theorem notify_snd_defaultDuration (msg : String) (sev : Severity) (dur : Option Nat)
    (act : Option String) (s : ToastState) :
    (Manager.notify msg sev dur act s).2.defaultDuration = s.defaultDuration := rfl

theorem dismiss_store (id : Nat) (s : ToastState) :
    (Manager.dismiss id s).store = Store.removeById id s.store := rfl

theorem dismiss_timers (id : Nat) (s : ToastState) :
    (Manager.dismiss id s).timers = Registry.cancel id s.timers := rfl

theorem dismiss_nextId (id : Nat) (s : ToastState) :
    (Manager.dismiss id s).nextId = s.nextId := rfl

theorem dismiss_now (id : Nat) (s : ToastState) :
    (Manager.dismiss id s).now = s.now := rfl

theorem dismissAll_store (s : ToastState) : (Manager.dismissAll s).store = [] := rfl

theorem dismissAll_timers (s : ToastState) : (Manager.dismissAll s).timers = [] := rfl

theorem setDefaultDuration_store (d : Nat) (s : ToastState) :
    (Manager.setDefaultDuration d s).store = s.store := rfl

theorem setDefaultDuration_timers (d : Nat) (s : ToastState) :
    (Manager.setDefaultDuration d s).timers = s.timers := rfl

theorem setDefaultDuration_nextId (d : Nat) (s : ToastState) :
    (Manager.setDefaultDuration d s).nextId = s.nextId := rfl

theorem advance_store (dt : Nat) (s : ToastState) :
    (Manager.advance dt s).store
      = s.store.filter
          (fun n => !(decide (n.id ∈ Manager.dueIds s.timers (s.now + dt)))) := rfl

theorem advance_timers (dt : Nat) (s : ToastState) :
    (Manager.advance dt s).timers
      = s.timers.filter (fun t => decide (s.now + dt < t.2)) := rfl

theorem advance_nextId (dt : Nat) (s : ToastState) :
    (Manager.advance dt s).nextId = s.nextId := rfl

theorem advance_now (dt : Nat) (s : ToastState) :
    (Manager.advance dt s).now = s.now + dt := rfl

/-! ### Basic lemmas about the Store and the Timer Registry -/

theorem idsOf_append (a b : List Notification) : idsOf (a ++ b) = idsOf a ++ idsOf b :=
  List.map_append _ a b

theorem idsOf_singleton (n : Notification) : idsOf [n] = [n.id] := rfl

theorem idsOf_sublist {a b : List Notification} (h : a.Sublist b) :
    (idsOf a).Sublist (idsOf b) := h.map _

theorem idsOf_filter (p : Nat → Bool) (store : List Notification) :
    idsOf (store.filter (fun n => p n.id)) = (idsOf store).filter p := by
  induction store with
  | nil => rfl
  | cons m ms ih =>
      simp only [idsOf, List.map_cons, List.filter_cons] at *
      by_cases h : p m.id
      · simp [h, ih]
      · simp [h, ih]

theorem timerIds_filterId (p : Nat → Bool) (ts : List TimerEntry) :
    timerIds (ts.filter (fun t => p t.1)) = (timerIds ts).filter p := by
  induction ts with
  | nil => rfl
  | cons t ts ih =>
      simp only [timerIds, List.map_cons, List.filter_cons] at *
      by_cases h : p t.1
      · simp [h, ih]
      · simp [h, ih]

theorem timerIds_cancel (id : Nat) (ts : List TimerEntry) :
    timerIds (Registry.cancel id ts) = (timerIds ts).filter (fun j => j != id) :=
  timerIds_filterId (fun j => j != id) ts

theorem idsOf_removeById (id : Nat) (store : List Notification) :
    idsOf (Store.removeById id store) = (idsOf store).filter (fun j => j != id) :=
  idsOf_filter (fun j => j != id) store

theorem insert_eq_append {n : Notification} {store : List Notification}
    (h : n.id ∉ idsOf store) : Store.insert n store = store ++ [n] := by
  unfold Store.insert
  rw [if_neg]
  intro hc
  rw [List.any_eq_true] at hc
  obtain ⟨m, hm, hid⟩ := hc
  rw [beq_iff_eq] at hid
  exact h (hid ▸ List.mem_map_of_mem (·.id) hm)

theorem insert_fresh_eq_append {store : List Notification} {i : Nat} (h : i ∉ idsOf store)
    (msg : String) (sev : Severity) (dms : Nat) (act : Option String) :
    Store.insert ⟨i, msg, sev, dms, act⟩ store = store ++ [⟨i, msg, sev, dms, act⟩] :=
  insert_eq_append h

theorem cancel_eq_self {id : Nat} {ts : List TimerEntry} (h : id ∉ timerIds ts) :
    Registry.cancel id ts = ts := by
  unfold Registry.cancel
  rw [List.filter_eq_self]
  intro t ht
  rw [bne_iff_ne]
  intro he
  exact h (he ▸ List.mem_map_of_mem (·.1) ht)

theorem timerIds_sublist {ts1 ts2 : List TimerEntry} (h : ts1.Sublist ts2) :
    (timerIds ts1).Sublist (timerIds ts2) := h.map _

theorem timerIds_filter_subset (q : TimerEntry → Bool) (ts : List TimerEntry) :
    ∀ tid ∈ timerIds (ts.filter q), tid ∈ timerIds ts := fun _ h =>
  (timerIds_sublist (List.filter_sublist ts)).subset h

theorem dueIds_subset (ts : List TimerEntry) (d : Nat) :
    ∀ tid ∈ Manager.dueIds ts d, tid ∈ timerIds ts :=
  timerIds_filter_subset _ ts

theorem timerIds_filter_disjoint {p q : TimerEntry → Bool}
    (hpq : ∀ t, ¬(p t = true ∧ q t = true)) {ts : List TimerEntry}
    (hnd : (timerIds ts).Nodup) {tid : Nat}
    (hp : tid ∈ timerIds (ts.filter p)) (hq : tid ∈ timerIds (ts.filter q)) : False := by
  induction ts with
  | nil => simp [timerIds] at hp
  | cons t ts ih =>
      simp only [timerIds, List.map_cons, List.nodup_cons] at hnd
      obtain ⟨hhead, hnd'⟩ := hnd
      by_cases hpt : p t
      · by_cases hqt : q t
        · exact hpq t ⟨hpt, hqt⟩
        · simp only [List.filter_cons, hpt, hqt, if_true, if_false, Bool.false_eq_true,
            timerIds, List.map_cons, List.mem_cons] at hp hq
          rcases hp with rfl | hp
          · exact hhead (timerIds_filter_subset q ts _ hq)
          · exact ih hnd' hp hq
      · by_cases hqt : q t
        · simp only [List.filter_cons, hpt, hqt, if_true, if_false, Bool.false_eq_true,
            timerIds, List.map_cons, List.mem_cons] at hp hq
          rcases hq with rfl | hq
          · exact hhead (timerIds_filter_subset p ts _ hp)
          · exact ih hnd' hp hq
        · simp only [List.filter_cons, hpt, hqt, Bool.false_eq_true, if_false] at hp hq
          exact ih hnd' hp hq

theorem not_due_of_live {ts : List TimerEntry} {now2 : Nat} (hnd : (timerIds ts).Nodup)
    {tid : Nat} (h : tid ∈ timerIds (ts.filter (fun t => decide (now2 < t.2)))) :
    tid ∉ Manager.dueIds ts now2 := by
  intro hdue
  refine timerIds_filter_disjoint (p := fun t => decide (now2 < t.2))
    (q := fun t => decide (t.2 ≤ now2)) (fun t ht => ?_) hnd h hdue
  obtain ⟨h1, h2⟩ := ht
  rw [decide_eq_true_iff] at h1 h2
  exact absurd h2 (not_le.mpr h1)

/-! ### Preservation of the structural invariant -/

theorem inv_notify {s : ToastState} (h : Inv s) (msg : String) (sev : Severity)
    (dur : Option Nat) (act : Option String) : Inv (Manager.notify msg sev dur act s).2 := by
  obtain ⟨h1, h2, h3, h4, h5⟩ := h
  have hfresh : s.nextId ∉ idsOf s.store := fun hmem => Nat.lt_irrefl _ (h4 _ hmem)
  have hfreshT : s.nextId ∉ timerIds s.timers := fun hmem => Nat.lt_irrefl _ (h5 _ hmem)
  simp only [Manager.notify]
  rw [Inv]
  by_cases hdur : dur.getD s.defaultDuration = 0
  · rw [if_pos hdur]
    simp only [insert_fresh_eq_append hfresh, idsOf_append, idsOf_singleton]
    refine ⟨?_, h2, ?_, ?_, ?_⟩
    · rw [List.nodup_append]
      exact ⟨h1, List.nodup_singleton _, fun a ha hb =>
        (List.mem_singleton.1 hb ▸ hfresh) ha⟩
    · intro j hj
      exact List.mem_append_left _ (h3 j hj)
    · intro j hj
      rcases List.mem_append.1 hj with hj | hj
      · exact Nat.lt_succ_of_lt (h4 j hj)
      · rw [List.mem_singleton.1 hj]
        exact Nat.lt_succ_self _
    · intro j hj
      exact Nat.lt_succ_of_lt (h5 j hj)
  · rw [if_neg hdur]
    have htids : timerIds (s.timers ++ [(s.nextId, s.now + dur.getD s.defaultDuration)])
        = timerIds s.timers ++ [s.nextId] := by
      simp [timerIds]
    simp only [insert_fresh_eq_append hfresh, idsOf_append, idsOf_singleton,
      Registry.schedule, cancel_eq_self hfreshT, htids]
    refine ⟨?_, ?_, ?_, ?_, ?_⟩
    · rw [List.nodup_append]
      exact ⟨h1, List.nodup_singleton _, fun a ha hb =>
        (List.mem_singleton.1 hb ▸ hfresh) ha⟩
    · rw [List.nodup_append]
      exact ⟨h2, List.nodup_singleton _, fun a ha hb =>
        (List.mem_singleton.1 hb ▸ hfreshT) ha⟩
    · intro j hj
      rcases List.mem_append.1 hj with hj | hj
      · exact List.mem_append_left _ (h3 j hj)
      · exact List.mem_append_right _ hj
    · intro j hj
      rcases List.mem_append.1 hj with hj | hj
      · exact Nat.lt_succ_of_lt (h4 j hj)
      · rw [List.mem_singleton.1 hj]
        exact Nat.lt_succ_self _
    · intro j hj
      rcases List.mem_append.1 hj with hj | hj
      · exact Nat.lt_succ_of_lt (h5 j hj)
      · rw [List.mem_singleton.1 hj]
        exact Nat.lt_succ_self _

theorem inv_dismiss {s : ToastState} (h : Inv s) (id : Nat) : Inv (Manager.dismiss id s) := by
  obtain ⟨h1, h2, h3, h4, h5⟩ := h
  simp only [Manager.dismiss]
  rw [Inv]
  simp only [idsOf_removeById, timerIds_cancel]
  refine ⟨h1.filter _, h2.filter _, ?_, ?_, ?_⟩
  · intro j hj
    rw [List.mem_filter] at hj ⊢
    exact ⟨h3 j hj.1, hj.2⟩
  · intro j hj
    exact h4 j (List.mem_filter.1 hj).1
  · intro j hj
    exact h5 j (List.mem_filter.1 hj).1

theorem inv_dismissAll {s : ToastState} (_h : Inv s) : Inv (Manager.dismissAll s) := by
  simp only [Manager.dismissAll, Registry.cancelAll, Store.removeAll]
  rw [Inv]
  simp [idsOf, timerIds]

theorem inv_setDefaultDuration {s : ToastState} (h : Inv s) (d : Nat) :
    Inv (Manager.setDefaultDuration d s) := by
  obtain ⟨h1, h2, h3, h4, h5⟩ := h
  simp only [Manager.setDefaultDuration]
  exact ⟨h1, h2, h3, h4, h5⟩

theorem inv_advance {s : ToastState} (h : Inv s) (dt : Nat) : Inv (Manager.advance dt s) := by
  obtain ⟨h1, h2, h3, h4, h5⟩ := h
  simp only [Manager.advance]
  rw [Inv]
  simp only [idsOf_filter (fun j => !(decide (j ∈ Manager.dueIds s.timers (s.now + dt))))]
  refine ⟨h1.filter _, ?_, ?_, ?_, ?_⟩
  · exact (timerIds_sublist (List.filter_sublist s.timers)).nodup h2
  · intro j hj
    rw [List.mem_filter]
    refine ⟨h3 j (timerIds_filter_subset _ s.timers j hj), ?_⟩
    simp only [Bool.not_eq_eq_eq_not, Bool.not_true, decide_eq_false_iff_not]
    exact not_due_of_live h2 hj
  · intro j hj
    exact h4 j (List.mem_filter.1 hj).1
  · intro j hj
    exact h5 j (timerIds_filter_subset _ s.timers j hj)

theorem inv_applyEvent {s : ToastState} (h : Inv s) (e : Event) : Inv (applyEvent s e) := by
  cases e with
  | notify msg sev dur act => exact inv_notify h msg sev dur act
  | dismiss id => exact inv_dismiss h id
  | dismissAll => exact inv_dismissAll h
  | setDefaultDuration d => exact inv_setDefaultDuration h d
  | advance dt => exact inv_advance h dt

theorem inv_run {s : ToastState} (h : Inv s) (es : List Event) : Inv (run es s) := by
  induction es generalizing s with
  | nil => exact h
  | cons e es ih => exact ih (inv_applyEvent h e)

theorem inv_init : Inv Manager.init := by decide

/-! ### Claim theorems -/

/-- C1: after any sequence of notify/dismiss operations — indeed from any prior state at
all — `dismissAll()` cancels every pending timer and removes every record: the Store's
`list()` has zero entries and the Timer Registry zero pending timers. -/
theorem dismissAll_clears_everything :
    (∀ es : List Event,
        Store.list (Manager.dismissAll (run es Manager.init)).store = [] ∧
        (Manager.dismissAll (run es Manager.init)).timers = []) ∧
    (∀ s : ToastState,
        Store.list (Manager.dismissAll s).store = [] ∧ (Manager.dismissAll s).timers = []) :=
  ⟨fun _ => ⟨rfl, rfl⟩, fun _ => ⟨rfl, rfl⟩⟩

/-- C4: the Store's order is deterministic and insertion-ordered: `insert` appends to the
end, removing one record keeps the rest in their relative order (the result is a sublist of
the original), and in the concrete scenario notify "A" success, notify "B" error,
dismiss idA, `list()` returns only B's record. -/
theorem store_insertion_ordered :
    (∀ (st : List Notification) (n : Notification),
        n.id ∉ idsOf st → Store.insert n st = st ++ [n]) ∧
    (∀ (id : Nat) (st : List Notification), (Store.removeById id st).Sublist st) ∧
    Store.list (Manager.dismiss
        (Manager.notify "A" Severity.success none none Manager.init).1
        (Manager.notify "B" Severity.error none none
          (Manager.notify "A" Severity.success none none Manager.init).2).2).store
      = [⟨1, "B", Severity.error, 5000, none⟩] :=
  ⟨fun _ _ h => insert_eq_append h, fun _ st => List.filter_sublist st, rfl⟩

/-- Witness for C4: the general conjuncts applied at concrete inputs. -/
theorem store_insertion_ordered_witness :
    Store.insert ⟨0, "A", Severity.success, 5000, none⟩ []
        = [] ++ [⟨0, "A", Severity.success, 5000, none⟩] ∧
    (Store.removeById 0 [⟨0, "A", Severity.success, 5000, none⟩]).Sublist
        [⟨0, "A", Severity.success, 5000, none⟩] :=
  ⟨store_insertion_ordered.1 [] ⟨0, "A", Severity.success, 5000, none⟩ (by decide),
   store_insertion_ordered.2.1 0 [⟨0, "A", Severity.success, 5000, none⟩]⟩

/-- C6: `dismiss(id)` is an idempotent benign no-op on absent ids: with `id` in neither
Store nor Registry the state is unchanged (the operation is total — no error is raised);
dismissing twice equals dismissing once; and after a dismiss the id's timer is cancelled,
so however far time then advances the fired-timer set cannot contain it and no duplicate
removal of that id can occur. -/
theorem dismiss_idempotent_benign :
    (∀ (s : ToastState) (id : Nat), id ∉ idsOf s.store → id ∉ timerIds s.timers →
        Manager.dismiss id s = s) ∧
    (∀ (s : ToastState) (id : Nat),
        Manager.dismiss id (Manager.dismiss id s) = Manager.dismiss id s) ∧
    (∀ (s : ToastState) (id dt : Nat),
        id ∉ timerIds (Manager.dismiss id s).timers ∧
        id ∉ idsOf (Manager.advance dt (Manager.dismiss id s)).store) := by
  refine ⟨?_, ?_, ?_⟩
  · intro s id hstore htimer
    unfold Manager.dismiss
    rw [cancel_eq_self htimer]
    have hrm : Store.removeById id s.store = s.store := by
      unfold Store.removeById
      rw [List.filter_eq_self]
      intro m hm
      rw [bne_iff_ne]
      rintro rfl
      exact hstore (List.mem_map_of_mem (·.id) hm)
    rw [hrm]
  · intro s id
    simp [Manager.dismiss, Registry.cancel, Store.removeById, List.filter_filter]
  · intro s id dt
    constructor
    · intro hmem
      rw [Manager.dismiss] at hmem
      simp only [timerIds_cancel, List.mem_filter, bne_self_eq_false] at hmem
      exact absurd hmem.2 (by simp)
    · intro hmem
      simp only [Manager.advance, Manager.dismiss] at hmem
      have hmem2 : id ∈ idsOf (Store.removeById id s.store) :=
        (idsOf_sublist (List.filter_sublist _)).subset hmem
      rw [idsOf_removeById, List.mem_filter] at hmem2
      exact absurd hmem2.2 (by simp)

/-- Witness for C6: the hypothesis-bearing first conjunct applied at a concrete state. -/
theorem dismiss_idempotent_benign_witness :
    Manager.dismiss 5 Manager.init = Manager.init :=
  dismiss_idempotent_benign.1 Manager.init 5 (by decide) (by decide)

/-- C8: changing the Manager's default duration is a pure frame change: the Store, the
pending timers and the clock (hence every already-scheduled notification's remaining time
to auto-removal) are all unchanged; only notifications created afterwards can observe the
new default. -/
theorem setDefaultDuration_frame :
    ∀ (d : Nat) (s : ToastState),
      (Manager.setDefaultDuration d s).store = s.store ∧
      (Manager.setDefaultDuration d s).timers = s.timers ∧
      ((Manager.setDefaultDuration d s).timers.map
          (fun t => t.2 - (Manager.setDefaultDuration d s).now))
        = s.timers.map (fun t => t.2 - s.now) :=
  fun _ _ => ⟨rfl, rfl, rfl⟩

/-- C9: for every combination of the other props, the Modal renders nothing when `open` is
false: `render` is `none` (no portal, overlay or dialog), the escape-key listener is not
installed, and the body scroll lock is not applied. -/
theorem modal_closed_renders_nothing :
    ∀ p : ModalProps, p.isOpen = false →
      Modal.render p = none ∧
      Modal.escapeListenerInstalled p = false ∧
      Modal.bodyScrollLocked p = false := by
  intro p h
  refine ⟨?_, ?_, h⟩
  · simp [Modal.render, h]
  · simp [Modal.escapeListenerInstalled, h]

/-- Witness for C9: the theorem applied to a concrete closed Modal. -/
theorem modal_closed_renders_nothing_witness :
    Modal.render ⟨false, some "Hi", ModalSize.md, true, true, true, ""⟩ = none ∧
    Modal.escapeListenerInstalled ⟨false, some "Hi", ModalSize.md, true, true, true, ""⟩
        = false ∧
    Modal.bodyScrollLocked ⟨false, some "Hi", ModalSize.md, true, true, true, ""⟩ = false :=
  modal_closed_renders_nothing ⟨false, some "Hi", ModalSize.md, true, true, true, ""⟩ rfl

/-- C10: the scaffolding script is atomic on failure: if the entered name normalizes to the
empty string, or a component file with the normalized PascalCase name already exists, it
exits with an error before writing anything — the filesystem (components directory and
src/index.ts included) is exactly the one it started with. -/
theorem scaffold_atomic_on_failure :
    ∀ (fs : Scaffold.FS) (rawName : String),
      (Scaffold.toPascalCase (Scaffold.trim rawName) = "" ∨
        Scaffold.existsFile fs
          (Scaffold.componentFilePath (Scaffold.toPascalCase (Scaffold.trim rawName)))
          = true) →
      Scaffold.main fs rawName = (fs, false) := by
  intro fs raw h
  unfold Scaffold.main
  rcases h with h | h
  · rw [if_pos h]
  · by_cases h0 : Scaffold.toPascalCase (Scaffold.trim raw) = ""
    · rw [if_pos h0]
    · rw [if_neg h0, if_pos h]

/-- Witness for C10: a name of separators and blanks normalizes to the empty string, and
the script leaves the (empty) filesystem untouched. -/
theorem scaffold_atomic_on_failure_witness :
    Scaffold.main [] "  - _ " = ([], false) :=
  scaffold_atomic_on_failure [] "  - _ " (Or.inl (by decide))

/-! ### Persistence of zero-duration notifications (C2) -/

theorem persists_applyEvent {id : Nat} {s : ToastState} (h : Persists id s) (e : Event)
    (he : dismissesId id e = false) : Persists id (applyEvent s e) := by
  obtain ⟨ha, hb, hc⟩ := h
  cases e with
  | notify msg sev dur act =>
      rw [Persists, applyEvent, notify_snd_store, notify_snd_timers, notify_snd_nextId]
      refine ⟨?_, ?_, Nat.lt_succ_of_lt hc⟩
      · unfold Store.insert
        split
        · exact ha
        · rw [idsOf_append]
          exact List.mem_append_left _ ha
      · by_cases hdur : dur.getD s.defaultDuration = 0
        · rw [if_pos hdur]
          exact hb
        · rw [if_neg hdur]
          intro hmem
          rw [Registry.schedule] at hmem
          have htids : timerIds (Registry.cancel s.nextId s.timers
              ++ [(s.nextId, s.now + dur.getD s.defaultDuration)])
              = timerIds (Registry.cancel s.nextId s.timers) ++ [s.nextId] := by
            simp [timerIds]
          rw [htids] at hmem
          rcases List.mem_append.1 hmem with hmem | hmem
          · exact hb (timerIds_filter_subset _ s.timers id hmem)
          · exact Nat.lt_irrefl _ (List.mem_singleton.1 hmem ▸ hc)
  | dismiss j =>
      have hji : j ≠ id := by
        simpa [dismissesId] using he
      rw [Persists, applyEvent, dismiss_store, dismiss_timers, dismiss_nextId]
      refine ⟨?_, ?_, hc⟩
      · rw [idsOf_removeById, List.mem_filter]
        exact ⟨ha, bne_iff_ne.2 (fun hij => hji hij.symm)⟩
      · intro hmem
        exact hb (timerIds_filter_subset _ s.timers id hmem)
  | dismissAll => simp [dismissesId] at he
  | setDefaultDuration d => exact ⟨ha, hb, hc⟩
  | advance dt =>
      rw [Persists, applyEvent, advance_store, advance_timers, advance_nextId]
      refine ⟨?_, ?_, hc⟩
      · rw [idsOf_filter
            (fun j => !(decide (j ∈ Manager.dueIds s.timers (s.now + dt)))) s.store,
          List.mem_filter]
        refine ⟨ha, ?_⟩
        simp only [Bool.not_eq_eq_eq_not, Bool.not_true, decide_eq_false_iff_not]
        intro hdue
        exact hb (dueIds_subset s.timers (s.now + dt) id hdue)
      · intro hmem
        exact hb (timerIds_filter_subset _ s.timers id hmem)

theorem persists_run {id : Nat} {s : ToastState} (h : Persists id s) (es : List Event)
    (hes : ∀ e ∈ es, dismissesId id e = false) : Persists id (run es s) := by
  induction es generalizing s with
  | nil => exact h
  | cons e es ih =>
      exact ih (persists_applyEvent h e (hes e (List.mem_cons_self e es)))
        (fun e' he' => hes e' (List.mem_cons_of_mem e he'))

theorem persists_notify_zero {s : ToastState} (hinv : Inv s) (msg : String) (sev : Severity)
    (act : Option String) :
    Persists (Manager.notify msg sev (some 0) act s).1
      (Manager.notify msg sev (some 0) act s).2 := by
  obtain ⟨h1, h2, h3, h4, h5⟩ := hinv
  have hfresh : s.nextId ∉ idsOf s.store := fun hm => Nat.lt_irrefl _ (h4 _ hm)
  have hfreshT : s.nextId ∉ timerIds s.timers := fun hm => Nat.lt_irrefl _ (h5 _ hm)
  rw [Persists, notify_fst, notify_snd_store, notify_snd_timers, notify_snd_nextId]
  rw [if_pos (show (some 0).getD s.defaultDuration = 0 from rfl)]
  refine ⟨?_, hfreshT, Nat.lt_succ_self _⟩
  rw [insert_fresh_eq_append hfresh, idsOf_append, idsOf_singleton]
  exact List.mem_append_right _ (List.mem_singleton.2 rfl)

/-- C2: a notification created with durationMs = 0 never gets a timer and is never
auto-removed: immediately after the `notify` no timer is pending for its id, and after any
further sequence of events that does not explicitly dismiss it (in particular, however far
time advances), its record is still in the Store and still has no pending timer. -/
theorem notify_zero_never_autoremoved :
    ∀ (s : ToastState) (msg : String) (sev : Severity) (act : Option String)
      (es : List Event),
      Inv s →
      (∀ e ∈ es, dismissesId (Manager.notify msg sev (some 0) act s).1 e = false) →
      (Manager.notify msg sev (some 0) act s).1
          ∉ timerIds (Manager.notify msg sev (some 0) act s).2.timers ∧
      (Manager.notify msg sev (some 0) act s).1
          ∈ idsOf (Store.list (run es (Manager.notify msg sev (some 0) act s).2).store) ∧
      (Manager.notify msg sev (some 0) act s).1
          ∉ timerIds (run es (Manager.notify msg sev (some 0) act s).2).timers := by
  intro s msg sev act es hinv hes
  have hP := persists_notify_zero hinv msg sev act
  have hR := persists_run hP es hes
  exact ⟨hP.2.1, hR.1, hR.2.1⟩

/-- Witness for C2: a persistent toast created on the fresh Manager survives a very large
time advance, and never owns a timer. -/
theorem notify_zero_never_autoremoved_witness :
    0 ∉ timerIds (Manager.notify "p" Severity.info (some 0) none Manager.init).2.timers ∧
    0 ∈ idsOf (Store.list (run [Event.advance 999999]
        (Manager.notify "p" Severity.info (some 0) none Manager.init).2).store) ∧
    0 ∉ timerIds (run [Event.advance 999999]
        (Manager.notify "p" Severity.info (some 0) none Manager.init).2).timers :=
  notify_zero_never_autoremoved Manager.init "p" Severity.info none [Event.advance 999999]
    (by decide) (by decide)

/-- C5: timer expiry removes exactly the expiring notification. From any state satisfying
the invariant in which no already-pending timer is due within the next 2000ms,
`success "x" 2000` followed by advancing time by 2000ms removes exactly the new
notification — the Store returns to exactly its prior contents, order included — and every
previously pending timer is still pending. -/
theorem custom_duration_exact_removal :
    ∀ s : ToastState, Inv s →
      (∀ t ∈ s.timers, s.now + 2000 < t.2) →
      (Manager.advance 2000 (Manager.success "x" (some 2000) s).2).store = s.store ∧
      (Manager.advance 2000 (Manager.success "x" (some 2000) s).2).timers = s.timers := by
  intro s hinv hdue
  obtain ⟨h1, h2, h3, h4, h5⟩ := hinv
  have hfresh : s.nextId ∉ idsOf s.store := fun hm => Nat.lt_irrefl _ (h4 _ hm)
  have hfreshT : s.nextId ∉ timerIds s.timers := fun hm => Nat.lt_irrefl _ (h5 _ hm)
  rw [Manager.success, advance_store, advance_timers, notify_snd_store, notify_snd_timers,
    notify_snd_now]
  simp only [Option.getD_some]
  rw [if_neg (by decide : ¬(2000 = 0))]
  rw [Registry.schedule, cancel_eq_self hfreshT, insert_fresh_eq_append hfresh]
  have hfired : Manager.dueIds (s.timers ++ [(s.nextId, s.now + 2000)]) (s.now + 2000)
      = [s.nextId] := by
    rw [Manager.dueIds, List.filter_append]
    have hnil : s.timers.filter (fun t => decide (t.2 ≤ s.now + 2000)) = [] := by
      rw [List.filter_eq_nil_iff]
      intro t ht
      simp only [decide_eq_true_iff, not_le]
      exact hdue t ht
    rw [hnil]
    simp
  rw [hfired]
  constructor
  · rw [List.filter_append]
    have hall : s.store.filter (fun n => !(decide (n.id ∈ [s.nextId]))) = s.store := by
      rw [List.filter_eq_self]
      intro n hn
      simp only [List.mem_singleton, Bool.not_eq_eq_eq_not, Bool.not_true,
        decide_eq_false_iff_not]
      exact Nat.ne_of_lt (h4 _ (List.mem_map_of_mem (·.id) hn))
    rw [hall]
    simp
  · rw [List.filter_append]
    have hall : s.timers.filter (fun t => decide (s.now + 2000 < t.2)) = s.timers := by
      rw [List.filter_eq_self]
      intro t ht
      exact decide_eq_true (hdue t ht)
    rw [hall]
    simp

/-- Witness for C5: the theorem applied at the fresh Manager (no pending timers, so the
side condition is vacuous). -/
theorem custom_duration_exact_removal_witness :
    (Manager.advance 2000 (Manager.success "x" (some 2000) Manager.init).2).store
        = Manager.init.store ∧
    (Manager.advance 2000 (Manager.success "x" (some 2000) Manager.init).2).timers
        = Manager.init.timers :=
  custom_duration_exact_removal Manager.init (by decide) (by decide)

/-! ### Conservation of the Store length (C3) -/

theorem removeById_eq_filter_not (id : Nat) (l : List Notification) :
    Store.removeById id l = l.filter (fun n => !(n.id == id)) := rfl

theorem length_filter_not_add_countP (p : Notification → Bool) (l : List Notification) :
    (l.filter (fun n => !(p n))).length + l.countP p = l.length := by
  induction l with
  | nil => rfl
  | cons n l ih =>
      by_cases h : p n = true
      · simp only [List.filter_cons, List.countP_cons, h, Bool.not_true, Bool.false_eq_true,
          if_false, if_pos, List.length_cons]
        omega
      · simp only [List.filter_cons, List.countP_cons, h, Bool.not_eq_true] at *
        simp only [h, Bool.not_false, if_true, if_false, List.length_cons, if_neg,
          Bool.false_eq_true]
        omega

theorem countedStep_st (c : CountedState) (e : Event) :
    (countedStep c e).st = applyEvent c.st e := by
  cases e <;> rfl

theorem countedOK_step {c : CountedState} (h : CountedOK c) (e : Event) :
    CountedOK (countedStep c e) := by
  obtain ⟨hinv, heq⟩ := h
  have hinv2 : Inv (countedStep c e).st := by
    rw [countedStep_st]
    exact inv_applyEvent hinv e
  refine ⟨hinv2, ?_⟩
  cases e with
  | notify msg sev dur act =>
      obtain ⟨h1, h2, h3, h4, h5⟩ := hinv
      have hfresh : c.st.nextId ∉ idsOf c.st.store := fun hm => Nat.lt_irrefl _ (h4 _ hm)
      simp only [countedStep]
      rw [notify_snd_store, insert_fresh_eq_append hfresh, List.length_append]
      simp only [List.length_singleton]
      omega
  | dismiss id =>
      simp only [countedStep]
      rw [dismiss_store, removeById_eq_filter_not]
      have hlen := length_filter_not_add_countP (fun n => n.id == id) c.st.store
      omega
  | dismissAll =>
      simp only [countedStep]
      rw [dismissAll_store]
      simp only [List.length_nil]
      omega
  | setDefaultDuration d =>
      simp only [countedStep]
      rw [setDefaultDuration_store]
      omega
  | advance dt =>
      simp only [countedStep]
      rw [advance_store]
      have hlen := length_filter_not_add_countP
        (fun n => decide (n.id ∈ Manager.dueIds c.st.timers (c.st.now + dt))) c.st.store
      omega

theorem countedOK_foldl (es : List Event) :
    ∀ c : CountedState, CountedOK c → CountedOK (es.foldl countedStep c) := by
  induction es with
  | nil => exact fun _ h => h
  | cons e es ih => exact fun c h => ih _ (countedOK_step h e)

theorem countedOK_run (es : List Event) : CountedOK (countedRun es) :=
  countedOK_foldl es _ ⟨inv_init, rfl⟩

/-- C3: for every sequence of notify, timer-expiration and dismiss events (run from a
fresh Manager with removal counters kept alongside), the length of the Store `list()`
equals the number of notifications created minus the number that have expired or been
dismissed. -/
theorem list_length_eq_created_sub_removed :
    ∀ es : List Event,
      (Store.list (countedRun es).st.store).length
        = (countedRun es).created - ((countedRun es).expired + (countedRun es).dismissed) := by
  intro es
  have h := (countedOK_run es).2
  rw [Store.list]
  omega

/-- C7: in every reachable state of the Manager, the Timer Registry's live ids are
distinct (at most one active timer per id), and each of them corresponds to exactly one
record in the Notification Store. -/
theorem timer_registry_correspondence :
    ∀ es : List Event,
      (timerIds (run es Manager.init).timers).Nodup ∧
      ∀ id ∈ timerIds (run es Manager.init).timers,
        (idsOf (run es Manager.init).store).count id = 1 := by
  intro es
  obtain ⟨h1, h2, h3, h4, h5⟩ := inv_run inv_init es
  exact ⟨h2, fun id hid => List.count_eq_one_of_mem h1 (h3 id hid)⟩

/-- Witness for C7: after one 2000ms notification from the fresh Manager, id 0 owns the
one live timer and has exactly one Store record. -/
theorem timer_registry_correspondence_witness :
    (idsOf (run [Event.notify "x" Severity.success (some 2000) none] Manager.init).store).count 0
      = 1 :=
  (timer_registry_correspondence [Event.notify "x" Severity.success (some 2000) none]).2 0
    (by decide)

end Sketchbook
